import Mathlib

/-!
Shallow embedding of `src/app.py` (LimpiarDuplicados): the table loader
and the filter-and-summary engine, with the claims of the specification
settled as theorems.

Modelling conventions:
* A table cell is `Option String`: `none` models a pandas null (`NaN`);
  `some s` models a cell whose string form is `s`.  The engine only ever
  looks at cells through `astype(str)`, so scalar cells are represented
  by their string form.
* pandas `Series.astype(str)` renders a null as the string `"nan"`;
  `cellStr` reproduces this.
* Python `str.strip()` is modelled by dropping whitespace characters from
  both ends of the character list.
* `re.sub(r"\D", "", x)` is modelled as keeping the decimal digit
  characters `0`-`9`.
-/

namespace LimpiarDuplicados

/-- A table cell: `none` is a pandas null (`NaN`), `some s` a scalar whose
string form is `s`. -/
abbrev Cell := Option String

/-- A parsed table: ordered column names and ordered rows of cells
(`pd.DataFrame`). -/
structure Table where
  cols : List String
  rows : List (List Cell)
deriving DecidableEq, Repr

/-- `astype(str)` on one cell: pandas renders a null as the string `"nan"`. -/
def cellStr : Cell → String
  | none => "nan"
  | some s => s

/-- Python `str.strip()`: drop leading and trailing whitespace. -/
def stripStr (s : String) : String :=
  (((s.toList.dropWhile Char.isWhitespace).reverse.dropWhile
      Char.isWhitespace).reverse).asString

/-- `re.sub` with pattern `\D` and empty replacement: keep only decimal
digits. -/
def keepDigits (s : String) : String :=
  (s.toList.filter Char.isDigit).asString

/-- `_normalize_series` on a single cell (`app.py` lines 97-106): convert
to string, strip spaces, and when `digits_only` keep only digits.  The app
always calls it with `strip_spaces=True`. -/
def normalizeCell (digits_only : Bool) (c : Cell) : String :=
  let s := stripStr (cellStr c)
  if digits_only then keepDigits s else s

/-- `df[col]` by column position: the `j`-th cell of each row; a missing
cell reads as null (short rows are padded with nulls). -/
def getCol (t : Table) (j : Nat) : List Cell :=
  t.rows.map (fun r => r.getD j none)

/-- `a_series` (`app.py` line 197): normalize the target column of A.
Null cells of A are NOT dropped; they pass through `astype(str)`. -/
def aSeries (A : Table) (ca : Nat) (d : Bool) : List String :=
  (getCol A ca).map (normalizeCell d)

/-- `b_series` (`app.py` line 198): `df_b[col].dropna()` then normalize.
Null cells of B are dropped before normalization. -/
def bSeries (B : Table) (cb : Nat) (d : Bool) : List String :=
  ((getCol B cb).filterMap id).map (fun s => normalizeCell d (some s))

/-- `b_set = set(b_series.tolist())` (`app.py` line 201): the exclusion
set, as a duplicate-free list; membership is what the engine uses. -/
def bSet (B : Table) (cb : Nat) (d : Bool) : List String :=
  (bSeries B cb d).dedup

/-- One entry of `mask_repetidos` (`app.py` line 204), phrased on a row of
A: the normalized target cell of the row is a member of the exclusion
set. -/
def rowExcluded (ca : Nat) (bs : List String) (d : Bool) (r : List Cell) : Bool :=
  bs.contains (normalizeCell d (r.getD ca none))

/-- `filas_repetidas = mask_repetidos.sum()` (`app.py` line 205). -/
def filasRepetidas (A : Table) (ca : Nat) (B : Table) (cb : Nat) (d : Bool) : Nat :=
  (aSeries A ca d).countP (fun v => (bSet B cb d).contains v)

/-- `df_resultado = df_a.loc[~mask_repetidos]` (`app.py` line 208): the
rows of A whose normalized target value is not in the exclusion set,
original cells and order preserved. -/
def dfResultado (A : Table) (ca : Nat) (B : Table) (cb : Nat) (d : Bool) : Table :=
  { cols := A.cols
    rows := A.rows.filter (fun r => !rowExcluded ca (bSet B cb d) d r) }

/-- `a_series[mask_repetidos]` (`app.py` line 215): the normalized values
of the excluded rows of A, in row order. -/
def aMasked (A : Table) (ca : Nat) (B : Table) (cb : Nat) (d : Bool) : List String :=
  (aSeries A ca d).filter (fun v => (bSet B cb d).contains v)

/-- One row of the `numeros_repetidos` sheet. -/
structure SummaryRow where
  numero : String
  conteo_en_A : Nat
  conteo_en_B : Nat
deriving DecidableEq, Repr

/-- `numeros_repetidos` (`app.py` lines 214-234): index the distinct
excluded normalized values in ascending order (`sorted(set(...))`), and
attach the group sizes of `a_series[mask]` and of `b_series`.  The left
merges of the source always match: every indexed value occurs in
`a_series[mask]` by construction and lies in `b_set`, hence also occurs
in `b_series`, so both counts are the plain group sizes. -/
def numerosRepetidos (A : Table) (ca : Nat) (B : Table) (cb : Nat) (d : Bool) :
    List SummaryRow :=
  (List.insertionSort (fun a b => a ≤ b) (aMasked A ca B cb d).dedup).map
    (fun v =>
      { numero := v
        conteo_en_A := (aMasked A ca B cb d).count v
        conteo_en_B := (bSeries B cb d).count v })

/-- The complete output of one successful run: the filtered table, the
summary sheet, and the three metrics of `app.py` lines 237-240. -/
structure RunResult where
  resultado : Table
  repetidos : List SummaryRow
  totalA : Nat
  eliminadas : Nat
  finales : Nat
deriving DecidableEq, Repr

/-- The two terminal errors of the run block (`app.py` lines 191-194). -/
inductive EngineError
  | missingInput
  | missingColumnSelection
deriving DecidableEq, Repr

/-- The successful branch of the run block (`app.py` lines 196-240). -/
def engine (A : Table) (ca : Nat) (B : Table) (cb : Nat) (d : Bool) : RunResult :=
  { resultado := dfResultado A ca B cb d
    repetidos := numerosRepetidos A ca B cb d
    totalA := A.rows.length
    eliminadas := filasRepetidas A ca B cb d
    finales := (dfResultado A ca B cb d).rows.length }

/-- The run block (`app.py` lines 190-240): both tables must be present,
then both column selections, and only then is the engine run.  Column
selections are positional indices into the column list. -/
def run :
    Option Table → Option Nat → Option Table → Option Nat → Bool →
      Except EngineError RunResult
  | none, _, _, _, _ => .error .missingInput
  | _, _, none, _, _ => .error .missingInput
  | some _, none, some _, _, _ => .error .missingColumnSelection
  | some _, some _, some _, none, _ => .error .missingColumnSelection
  | some A, some ca, some B, some cb, d => .ok (engine A ca B cb d)

/-! ## Table loader (`_read_table`, delimited-text path) -/

/-- `header_mode` of `_read_table` (`app.py` line 54): `header = 0` when
the mode is `"infer"`, `header = None` when it is `"sin encabezados"`. -/
inductive HeaderMode
  | infer
  | sinEncabezados
deriving DecidableEq, Repr

/-- Split a character list at every occurrence of `sep`; always returns at
least one (possibly empty) field. -/
def splitOnChar (sep : Char) : List Char → List (List Char)
  | [] => [[]]
  | c :: rest =>
    let r := splitOnChar sep rest
    if c = sep then [] :: r
    else (c :: r.headD []) :: r.tail

/-- The physical lines of the decoded file content; pandas skips blank
lines (`skip_blank_lines=True` default of `pd.read_csv`). -/
def parseLines (content : String) : List String :=
  ((splitOnChar (Char.ofNat 10) content.toList).map List.asString).filter
    (fun l => l ≠ "")

/-- The delimited fields of one line. -/
def fieldsOf (sep : Char) (line : String) : List String :=
  (splitOnChar sep line.toList).map List.asString

/-- A raw field as a cell: an empty field reads as a null (`NaN`). -/
def cellOfField (f : String) : Cell :=
  if f = "" then none else some f

/-- The `pd.read_csv(BytesIO(file_bytes), sep=sep, header=header)` call of
`_read_table` (`app.py` lines 54 and 91), restricted to single-character
delimiters: with `header = 0` the first line gives the column names and the
remaining lines the rows; with `header = None` every line is a row and the
column labels are the positional names `0, 1, 2, ...` rendered as strings,
one per column of the (rectangular) file. -/
def readDelimited (content : String) (sep : Char) (h : HeaderMode) : Table :=
  let ls := parseLines content
  match h with
  | .infer =>
    { cols := fieldsOf sep (ls.headD "")
      rows := (ls.drop 1).map (fun l => (fieldsOf sep l).map cellOfField) }
  | .sinEncabezados =>
    { cols := (List.range (fieldsOf sep (ls.headD "")).length).map
        (fun i => toString i)
      rows := ls.map (fun l => (fieldsOf sep l).map cellOfField) }

/-! ## Bridge lemmas -/

/-- `a_series` is the row-wise normalization of the target column of A. -/
theorem aSeries_eq (A : Table) (ca : Nat) (d : Bool) :
    aSeries A ca d = A.rows.map (fun r => normalizeCell d (r.getD ca none)) := by
  simp [aSeries, getCol, List.map_map, Function.comp_def]

/-- The count of masked rows is a row-wise count over A. -/
theorem filasRepetidas_eq (A : Table) (ca : Nat) (B : Table) (cb : Nat) (d : Bool) :
    filasRepetidas A ca B cb d =
      A.rows.countP (fun r => rowExcluded ca (bSet B cb d) d r) := by
  simp [filasRepetidas, aSeries_eq, List.countP_map, Function.comp_def, rowExcluded]

/-- Membership in the exclusion set is membership in the normalized,
null-free B column. -/
theorem mem_bSet (B : Table) (cb : Nat) (d : Bool) (v : String) :
    v ∈ bSet B cb d ↔ v ∈ bSeries B cb d := by
  simp [bSet]

/-- `List.contains` agrees with membership for strings. -/
theorem contains_iff (l : List String) (v : String) :
    l.contains v = true ↔ v ∈ l := by
  simp [List.contains_iff_exists_mem_beq, beq_iff_eq]

/-- Generic counting identity: kept plus flagged is the total. -/
theorem length_filter_not_add_countP {α : Type} (p : α → Bool) (l : List α) :
    (l.filter fun a => !p a).length + l.countP p = l.length := by
  induction l with
  | nil => rfl
  | cons a t ih =>
    by_cases h : p a <;>
      simp [List.countP_cons, h, List.filter_cons] <;> omega

/-! ## Claims -/

/-- C2: for every pair of tables with chosen columns and either
normalization mode, the aggregate counts satisfy
`remaining_count + excluded_count = total_count`, where the total is the
number of rows of A, the excluded count is the number of A rows whose
normalized target value lies in the exclusion set, and the remaining
count is the number of rows of the filtered result. -/
theorem claim2_theorem (A : Table) (ca : Nat) (B : Table) (cb : Nat) (d : Bool) :
    (engine A ca B cb d).finales + (engine A ca B cb d).eliminadas =
      (engine A ca B cb d).totalA := by
  show (dfResultado A ca B cb d).rows.length + filasRepetidas A ca B cb d =
    A.rows.length
  rw [filasRepetidas_eq]
  exact length_filter_not_add_countP _ _

/-- C4: on A target values `"7","7","9"` and B target values `"7","7","8"`
with `digitsOnly = false`, the engine excludes both `"7"` rows, the summary
sheet is the single row `(numero := "7", conteo_en_A := 2, conteo_en_B := 2)`,
and one row (the `"9"` row) remains. -/
theorem claim4_theorem :
    engine ⟨["c"], [[some "7"], [some "7"], [some "9"]]⟩ 0
        ⟨["n"], [[some "7"], [some "7"], [some "8"]]⟩ 0 false =
      { resultado := ⟨["c"], [[some "9"]]⟩
        repetidos := [⟨"7", 2, 2⟩]
        totalA := 3
        eliminadas := 2
        finales := 1 } := by
  decide

/-- C5: `"555-1234"` and `"5551234"` normalize equal under
`digitsOnly = true` and unequal under `digitsOnly = false`; in general the
normalization converts the cell to its string form, trims surrounding
whitespace, and under `digitsOnly` additionally drops every non-digit
character. -/
theorem claim5_theorem :
    normalizeCell true (some "555-1234") = normalizeCell true (some "5551234") ∧
    normalizeCell false (some "555-1234") ≠ normalizeCell false (some "5551234") ∧
    (∀ c : Cell, normalizeCell false c = stripStr (cellStr c)) ∧
    (∀ c : Cell, normalizeCell true c = keepDigits (stripStr (cellStr c))) :=
  ⟨by decide, by decide, fun _ => rfl, fun _ => rfl⟩

/-- C6: the filtered result is a sub-sequence of the rows of A — kept rows
appear in their original relative order with their original cells in every
column — and the column names are unchanged. -/
theorem claim6_theorem (A : Table) (ca : Nat) (B : Table) (cb : Nat) (d : Bool) :
    (engine A ca B cb d).resultado.rows.Sublist A.rows ∧
    (engine A ca B cb d).resultado.cols = A.cols :=
  ⟨List.filter_sublist _, rfl⟩

/-- C8: when both tables are present but the column selection of A or of B
is absent, the run yields the missing-column-selection error, hence no
partial result. -/
theorem claim8_theorem (A B : Table) (ca cb : Option Nat) (d : Bool)
    (h : ca = none ∨ cb = none) :
    run (some A) ca (some B) cb d = .error .missingColumnSelection := by
  rcases h with h | h
  · subst h; cases cb <;> rfl
  · subst h; cases ca <;> rfl

/-- Witness for C8 at a concrete input. -/
theorem claim8_witness :
    run (some ⟨["c"], []⟩) none (some ⟨["n"], []⟩) (some 0) false =
      .error .missingColumnSelection :=
  claim8_theorem ⟨["c"], []⟩ ⟨["n"], []⟩ none (some 0) false (Or.inl rfl)

/-- C3: when the normalized target columns of A and B share no value, the
filtered result is A unchanged, the duplicate summary is empty, and the
excluded count is 0. -/
theorem claim3_theorem (A : Table) (ca : Nat) (B : Table) (cb : Nat) (d : Bool)
    (h : ∀ v ∈ aSeries A ca d, v ∉ bSeries B cb d) :
    (engine A ca B cb d).resultado = A ∧
    (engine A ca B cb d).repetidos = [] ∧
    (engine A ca B cb d).eliminadas = 0 := by
  have hrow : ∀ r ∈ A.rows, rowExcluded ca (bSet B cb d) d r = false := by
    intro r hr
    have hmem : normalizeCell d (r.getD ca none) ∈ aSeries A ca d := by
      rw [aSeries_eq]; exact List.mem_map_of_mem _ hr
    have hnot : normalizeCell d (r.getD ca none) ∉ bSet B cb d := by
      rw [mem_bSet]; exact h _ hmem
    exact Bool.eq_false_iff.mpr
      (fun hc => hnot ((contains_iff _ _).1 hc))
  refine ⟨?_, ?_, ?_⟩
  · show dfResultado A ca B cb d = A
    simp only [dfResultado]
    rw [List.filter_eq_self.mpr (fun r hr => by simp [hrow r hr])]
  · show numerosRepetidos A ca B cb d = []
    have hm : aMasked A ca B cb d = [] := by
      rw [aMasked, List.filter_eq_nil_iff]
      intro v hv hc
      exact h v hv ((mem_bSet _ _ _ _).1 ((contains_iff _ _).1 hc))
    simp [numerosRepetidos, hm]
  · show filasRepetidas A ca B cb d = 0
    rw [filasRepetidas, List.countP_eq_zero]
    intro v hv hc
    exact h v hv ((mem_bSet _ _ _ _).1 ((contains_iff _ _).1 hc))

/-- Witness for C3 at a concrete disjoint input. -/
theorem claim3_witness :
    (∀ v ∈ aSeries ⟨["c"], [[some "1"]]⟩ 0 false,
        v ∉ bSeries ⟨["n"], [[some "2"]]⟩ 0 false) ∧
    ((engine ⟨["c"], [[some "1"]]⟩ 0 ⟨["n"], [[some "2"]]⟩ 0 false).resultado =
        ⟨["c"], [[some "1"]]⟩ ∧
      (engine ⟨["c"], [[some "1"]]⟩ 0 ⟨["n"], [[some "2"]]⟩ 0 false).repetidos = [] ∧
      (engine ⟨["c"], [[some "1"]]⟩ 0 ⟨["n"], [[some "2"]]⟩ 0 false).eliminadas = 0) :=
  ⟨by decide, claim3_theorem _ _ _ _ _ (by decide)⟩

/-- C7: the summary rows are sorted in strictly ascending lexicographic
order of their normalized value, and a value appears among them exactly
when it is the normalized value of at least one excluded row of A. -/
theorem claim7_theorem (A : Table) (ca : Nat) (B : Table) (cb : Nat) (d : Bool) :
    List.Sorted (· < ·) ((numerosRepetidos A ca B cb d).map SummaryRow.numero) ∧
    (∀ v, v ∈ (numerosRepetidos A ca B cb d).map SummaryRow.numero ↔
      v ∈ aMasked A ca B cb d) := by
  have hkeys : (numerosRepetidos A ca B cb d).map SummaryRow.numero =
      List.insertionSort (fun a b => a ≤ b) (aMasked A ca B cb d).dedup := by
    simp [numerosRepetidos, List.map_map, Function.comp_def]
  constructor
  · rw [hkeys]
    have hs : List.Sorted (fun a b : String => a ≤ b)
        (List.insertionSort (fun a b => a ≤ b) (aMasked A ca B cb d).dedup) :=
      List.sorted_insertionSort _ _
    have hn : (List.insertionSort (fun a b => a ≤ b)
        (aMasked A ca B cb d).dedup).Nodup :=
      (List.perm_insertionSort _ _).nodup_iff.mpr (List.nodup_dedup _)
    exact List.Sorted.lt_of_le hs hn
  · intro v
    rw [hkeys, (List.perm_insertionSort _ _).mem_iff, List.mem_dedup]

/-- C9: a delimited text file read without headers gets the positional
column names `"0", "1", "2", ...`, one per physical column. -/
theorem claim9_theorem (content : String) (sep : Char) (n : Nat)
    (h1 : parseLines content ≠ [])
    (h2 : ∀ l ∈ parseLines content, (fieldsOf sep l).length = n) :
    (readDelimited content sep .sinEncabezados).cols =
      (List.range n).map (fun i => toString i) ∧
    (readDelimited content sep .sinEncabezados).cols.length = n := by
  obtain ⟨a, t, hat⟩ := List.exists_cons_of_ne_nil h1
  have ha : (fieldsOf sep a).length = n :=
    h2 a (hat ▸ List.mem_cons_self a t)
  constructor
  · simp [readDelimited, hat, ha]
  · simp [readDelimited, hat, ha]

/-- Witness for C9 on a concrete two-line, two-column file. -/
theorem claim9_witness :
    (parseLines "x;y\nu;v" ≠ [] ∧
      ∀ l ∈ parseLines "x;y\nu;v", (fieldsOf ';' l).length = 2) ∧
    (readDelimited "x;y\nu;v" ';' .sinEncabezados).cols = ["0", "1"] := by
  refine ⟨⟨by decide, by decide⟩, ?_⟩
  have h := ( claim9_theorem "x;y\nu;v" ';' 2 (by decide) (by decide)).1
  rw [h]; decide

/-- Every character of the stripped string occurs in the original
string. -/
theorem mem_of_mem_stripStr (s : String) (ch : Char)
    (h : ch ∈ (stripStr s).toList) : ch ∈ s.toList := by
  have h0 : ch ∈ ((s.toList.dropWhile Char.isWhitespace).reverse.dropWhile
      Char.isWhitespace).reverse := h
  rw [List.mem_reverse] at h0
  have h1 := (List.dropWhile_sublist Char.isWhitespace).subset h0
  rw [List.mem_reverse] at h1
  exact (List.dropWhile_sublist Char.isWhitespace).subset h1

/-- C10 (implicit): under `digitsOnly = true`, a non-null B cell with no
digit in its string form normalizes to the empty string and enters the
exclusion set, so no A row whose normalized target value is empty survives
into the filtered result. -/
theorem claim10_theorem (A : Table) (ca : Nat) (B : Table) (cb : Nat) (w : String)
    (hw : some w ∈ getCol B cb) (hd : ∀ ch ∈ w.toList, ch.isDigit = false) :
    "" ∈ bSet B cb true ∧
    ∀ r ∈ (engine A ca B cb true).resultado.rows,
      normalizeCell true (r.getD ca none) ≠ "" := by
  have hnorm : normalizeCell true (some w) = "" := by
    show keepDigits (stripStr w) = ""
    unfold keepDigits
    have hfil : (stripStr w).toList.filter Char.isDigit = [] := by
      rw [List.filter_eq_nil_iff]
      intro ch hch
      simp [hd ch (mem_of_mem_stripStr w ch hch)]
    rw [hfil]; rfl
  have hserem : "" ∈ bSeries B cb true := by
    have hwmem : w ∈ (getCol B cb).filterMap id := by
      rw [List.mem_filterMap]; exact ⟨some w, hw, rfl⟩
    have hmap : normalizeCell true (some w) ∈ bSeries B cb true :=
      List.mem_map_of_mem (fun s => normalizeCell true (some s)) hwmem
    rwa [hnorm] at hmap
  refine ⟨(mem_bSet _ _ _ _).2 hserem, ?_⟩
  intro r hr heq
  have hmem := List.mem_filter.1 hr
  have hex : rowExcluded ca (bSet B cb true) true r = true := by
    simp only [rowExcluded, heq]
    exact (contains_iff _ _).2 ((mem_bSet _ _ _ _).2 hserem)
  simp [hex] at hmem

/-- Witness for C10: `"abc"` in B makes the empty normalized value a
member of the exclusion set. -/
theorem claim10_witness :
    "" ∈ bSet ⟨["n"], [[some "abc"]]⟩ 0 true :=
  ( claim10_theorem ⟨["c"], [[some "-"]]⟩ 0 ⟨["n"], [[some "abc"]]⟩ 0 "abc"
    (by decide) (by decide)).1

/-- C1 counterexample: with `digitsOnly = false`, A target column
`[null, ""]` and B target column `[""]`, the claim fails at this concrete
input on every part: a null A cell normalizes to `"nan"` rather than the
empty string; the only B value is blank yet one A row is excluded (so a
blank B value does cause an exclusion); and the empty string is in the
exclusion set while the null A row is nevertheless not excluded (so the
claimed biconditional fails). -/
theorem claim1_counterexample :
    normalizeCell false none ≠ "" ∧
    "" ∈ bSet ⟨["n"], [[some ""]]⟩ 0 false ∧
    (engine ⟨["c"], [[none], [some ""]]⟩ 0 ⟨["n"], [[some ""]]⟩ 0 false).eliminadas
      = 1 ∧
    rowExcluded 0 (bSet ⟨["n"], [[some ""]]⟩ 0 false) false [none] = false := by
  decide

/-- C1 amended: every member of the exclusion set comes from a non-null B
cell (null B cells never contribute), but a non-null blank B cell — one
whose string strips to empty — does put the empty string into the set; a
null A cell normalizes to `"nan"` when `digitsOnly` is false and to the
empty string when it is true, and such a row is excluded exactly when that
normalized value is a member of the exclusion set. -/
theorem claim1_theorem (A : Table) (ca : Nat) (B : Table) (cb : Nat) (d : Bool) :
    (∀ v ∈ bSet B cb d, ∃ s, some s ∈ getCol B cb ∧ v = normalizeCell d (some s)) ∧
    (∀ s, some s ∈ getCol B cb → stripStr s = "" → "" ∈ bSet B cb d) ∧
    (∀ r ∈ A.rows, r.getD ca none = none →
      (rowExcluded ca (bSet B cb d) d r = true ↔
        (if d then "" else "nan") ∈ bSet B cb d)) := by
  refine ⟨?_, ?_, ?_⟩
  · intro v hv
    rw [mem_bSet] at hv
    obtain ⟨s, hs, hval⟩ := List.mem_map.1 hv
    obtain ⟨c, hc, hcs⟩ := List.mem_filterMap.1 hs
    have hcs2 : c = some s := hcs
    exact ⟨s, hcs2 ▸ hc, hval.symm⟩
  · intro s hs hstrip
    have hnorm : normalizeCell d (some s) = "" := by
      simp only [normalizeCell, cellStr, hstrip]
      cases d <;> rfl
    have hwmem : s ∈ (getCol B cb).filterMap id := by
      rw [List.mem_filterMap]; exact ⟨some s, hs, rfl⟩
    have hmap : normalizeCell d (some s) ∈ bSeries B cb d :=
      List.mem_map_of_mem (fun x => normalizeCell d (some x)) hwmem
    rw [hnorm] at hmap
    exact (mem_bSet _ _ _ _).2 hmap
  · intro r _ hnull
    have hval : normalizeCell d (r.getD ca none) = (if d then "" else "nan") := by
      rw [hnull]; cases d <;> decide
    simp only [rowExcluded, hval]
    exact contains_iff _ _

/-- Witness for the amended C1: a whitespace-only B cell puts the empty
string into the exclusion set. -/
theorem claim1_witness :
    "" ∈ bSet ⟨["n"], [[some " "]]⟩ 0 false :=
  ( claim1_theorem ⟨["c"], [[none]]⟩ 0 ⟨["n"], [[some " "]]⟩ 0 false).2.1 " "
    (by decide) (by decide)

end LimpiarDuplicados
